import Mathlib

/-!
Shallow embedding of the mirror verification crawler (`utility/crawler.py`)
of mirrormanager2, together with theorems checking the natural-language
specification against it.

Modelling conventions:
* Python exceptions become an explicit `Exc` sum type and fallible code
  returns `Except Exc _`.  `Exc.pyError` stands for generic Python runtime
  errors (AttributeError, IndexError on unguarded subscripts, ...).
* Network and database I/O is abstracted by a `World` record of response
  functions; a probe of URL `u` on retry attempt `i` reads `World.resp u i`
  (HTTP) or `World.ftp u i` (FTP).  The rsync driver, `urlgrabber.urlread`,
  the SHA-256 function and the wall clock are likewise fields of `World`.
* Connection pooling and keep-alive bookkeeping of `hostState` is elided:
  it manages transport resources only and has no effect on any verdict.
* Python dictionaries keyed by ORM objects become association lists with
  first-match lookup and in-place replacement (`mapLookup` / `mapInsert`),
  and the catalog session becomes an explicit row store (`SyncState`).
* The unbounded recursions of the source (`add_parents` on the parent
  chain, the `check_url`/`check_head`/`handle_redirect` redirect cycle,
  `get_ftp_dir`'s reconnect) are embedded with an explicit fuel that
  strictly exceeds the depth the source's own guards allow, so that every
  definition is executable and reduces by `rfl`.
-/

/-- Python exception taxonomy of the crawler.  `ftpErr code` stands for an
`ftplib` error re-raised with reply `code`; `keyError k` for a `KeyError`
on dictionary key `k`; `pyError` for other runtime errors. -/
inductive Exc where
  | tryLater
  | forbiddenExpected
  | timeoutExc
  | httpUnknown
  | http500
  | ftpErr (code : String)
  | keyError (k : String)
  | pyError
deriving DecidableEq

/-- A `FileDetails` record: filename plus optional stored sha256. -/
structure FileDetail where
  filename : String
  sha256 : Option String
deriving DecidableEq

/-- A master `Directory` row: full path name, readability flag, expected
`files` mapping filename -> size (`none` when contents are unknown), and
the `FileDetails` collection used for `repomd.xml`. -/
structure Directory where
  id : Nat
  name : String
  readable : Bool
  files : Option (List (String × String))
  fileDetails : List FileDetail
deriving DecidableEq

/-- A `Category`: name plus the topdir `Directory`. -/
structure Category where
  name : String
  topdir : Directory
deriving DecidableEq

/-- A `HostCategory`: id, `always_up2date` flag, candidate URLs, category. -/
structure HostCategory where
  id : Nat
  always_up2date : Bool
  urls : List String
  category : Category
deriving DecidableEq

/-- A `Site`: activation flags and privacy. -/
structure Site where
  user_active : Bool
  admin_active : Bool
  «private» : Bool
deriving DecidableEq

/-- A `Host` row with the fields the crawler reads. -/
structure Host where
  id : Nat
  name : String
  «private» : Bool
  admin_active : Bool
  user_active : Bool
  site : Site
  categories : List HostCategory
deriving DecidableEq

/-- A `HostCategoryDir` row: the per-(host-category, path) verdict record. -/
structure HCDRow where
  host_category_id : Nat
  path : String
  directory : Option Directory
  up2date : Option Bool
deriving DecidableEq

/-- The transient per-host verdict map `(HostCategory, Directory) -> verdict`,
a Python dict embedded as an association list in insertion order. -/
abbrev VerdictMap := List ((HostCategory × Directory) × Option Bool)

/-- Parsed command-line options of the crawler. -/
structure Options where
  include_private : Bool
  timeout_minutes : Nat
  startid : Nat
  stopid : Nat
  categories : List String
  canary : Bool
deriving DecidableEq

/-- One HTTP HEAD response: status plus the two headers the crawler reads. -/
structure HeadResp where
  status : Nat
  contentLength : Option String
  location : Option String
deriving DecidableEq

/-- Outcome of one FTP `LIST` attempt (`hoststate.ftp_dir`). -/
inductive FtpResult where
  | ok (lines : List String)
  | permError (code : String)
  | tempError (code : String)
  | connError
deriving DecidableEq

/-- One record of the rsync listing: `mode size date time` keyed by name. -/
structure RsyncEnt where
  mode : String
  size : String
  date : String
  time : String
deriving DecidableEq

/-- The external world: HTTP/FTP/rsync responses, `urlgrabber.urlread`,
the SHA-256 function, the per-thread elapsed clock (`time.time() -
threadlocal.starttime` at the n-th `timeout_check`), the master directory
table behind `get_directory_by_name`, and the host-category query. -/
structure World where
  openOk : String → Bool
  resp : String → Nat → Option HeadResp
  ftp : String → Nat → FtpResult
  urlread : String → Option String
  sha256fn : String → String
  rsync : String → Option (Nat × List String)
  clock : Nat → Nat
  dirTable : List Directory
  hcQuery : Nat → String → List HostCategory

/-- Host-level side effects of a crawl that are not row writes: whether
`mark_not_up2date` ran, how many notification emails were attempted, and
the log of `time.sleep` durations of the try-later back-off. -/
structure WalkState where
  marked : Bool
  emails : Nat
  sleeps : List Nat
deriving DecidableEq

/-- The catalog session: the `HostCategoryDir` store and the number of
`session.commit()` calls performed. -/
structure SyncState where
  rows : List HCDRow
  commits : Nat
deriving DecidableEq

/-- First-match association-list lookup (Python dict access). -/
def mapLookup {κ β : Type} [DecidableEq κ] : List (κ × β) → κ → Option β
  | [], _ => none
  | (k, v) :: rest, key => if k = key then some v else mapLookup rest key

/-- Association-list insert-or-replace (Python dict assignment): replaces
the value at an existing key in place, else appends at the end. -/
def mapInsert {κ β : Type} [DecidableEq κ] : List (κ × β) → κ → β → List (κ × β)
  | [], key, val => [(key, val)]
  | (k, v) :: rest, key, val =>
    if k = key then (k, val) :: rest else (k, v) :: mapInsert rest key val


/-- Code-point comparison used by the string primitives below.  All string
operations of the embedding are defined over `String.data` (the character
list), which models Python's character-based strings and keeps every
definition kernel-reducible. -/
def charLt : List Char → List Char → Bool
  | [], [] => false
  | [], _ :: _ => true
  | _ :: _, [] => false
  | a :: as, b :: bs =>
    if a.toNat < b.toNat then true
    else if b.toNat < a.toNat then false
    else charLt as bs

/-- Python `a < b` on strings (lexicographic by code point). -/
def pLt (a b : String) : Bool := charLt a.data b.data

/-- Python `s.startswith(pre)`. -/
def pStartsWith (s pre : String) : Bool := pre.data.isPrefixOf s.data

/-- Python `s.endswith(suf)`. -/
def pEndsWith (s suf : String) : Bool := suf.data.isSuffixOf s.data

/-- Python `s[n:]` (character-based slicing). -/
def pDrop (s : String) (n : Nat) : String := ⟨s.data.drop n⟩

/-- Python `s[:-n]`. -/
def pDropRight (s : String) (n : Nat) : String := ⟨s.data.take (s.data.length - n)⟩

/-- Python `len(s)`. -/
def pLen (s : String) : Nat := s.data.length

/-- Split on every character satisfying `p`, keeping empty pieces (the
semantics of Python's `s.split(sep)` for a one-character separator). -/
def pSplitChAux (p : Char → Bool) : List Char → List Char → List String
  | [], acc => [⟨acc.reverse⟩]
  | c :: cs, acc =>
    if p c then ⟨acc.reverse⟩ :: pSplitChAux p cs [] else pSplitChAux p cs (c :: acc)

/-- `pSplitCh s p`: split `s` at every character satisfying `p`. -/
def pSplitCh (s : String) (p : Char → Bool) : List String := pSplitChAux p s.data []

/-- Python `sep.join(parts)`. -/
def pIntercalate (sep : String) (parts : List String) : String :=
  ⟨List.intercalate sep.data (parts.map String.data)⟩

/-- Python's `str.split()` with no argument: split on whitespace runs. -/
def pySplit (s : String) : List String :=
  (pSplitCh s (fun c => c == ' ' || c == '\t' || c == '\n')).filter (fun t => !(t == ""))

/-- `urlparse.urlsplit` restricted to the parts the crawler reads:
scheme, netloc and the rest (query/fragment handling is elided because the
embedded world is keyed by whole URLs). -/
def urlsplit (url : String) : String × String × String :=
  if url.data.contains ':' then
    let scheme : String := ⟨url.data.takeWhile (fun c => c != ':')⟩
    let rest := pDrop url (pLen scheme + 1)
    if pStartsWith rest "//" then
      let rest2 := pDrop rest 2
      let netloc : String := ⟨rest2.data.takeWhile (fun c => c != '/')⟩
      (scheme, netloc, pDrop rest2 (pLen netloc))
    else (scheme, "", rest)
  else ("", "", url)

/-- `method_pref(urls, prev)`: the first loop returns the first rsync URL
unless `prev` is an rsync URL (in which case it breaks out immediately,
which is equivalent to skipping the loop since `prev` is loop-invariant);
the remaining code picks the first http URL, else the first ftp URL. -/
def method_pref (urls : List String) (prev : String) : Option String :=
  match (if pStartsWith prev "rsync:" then none
         else urls.find? (fun u => pStartsWith u "rsync:")) with
  | some u => some u
  | none =>
    match urls.find? (fun u => pStartsWith u "http:") with
    | some u => some u
    | none => urls.find? (fun u => pStartsWith u "ftp:")

/-- `mirrormanager2.lib.get_directory_by_name`: lookup by exact name. -/
def get_directory_by_name (tbl : List Directory) (name : String) : Option Directory :=
  tbl.find? (fun dd => dd.name == name)

/-- `parent(session, directory)`: drop the last `/`-separated component of
the name and look the resulting path up in the directory table. -/
def parent (tbl : List Directory) (d : Directory) : Option Directory :=
  let splitpath := pSplitCh d.name (fun c => c == '/')
  if splitpath.dropLast.length > 0 then
    get_directory_by_name tbl (pIntercalate "/" splitpath.dropLast)
  else none

/-- `add_parents(session, host_category_dirs, hc, d)`: walk up the parent
chain, inserting each parent with verdict `None` when absent, stopping
after the category topdir has been processed.  The recursion of the source
is embedded with fuel; callers pass `d.name.length + 2`, which strictly
exceeds the chain depth (each parent name has one component fewer). -/
def add_parents (tbl : List Directory) (m : VerdictMap) (hc : HostCategory)
    (d : Directory) : Nat → VerdictMap
  | 0 => m
  | fuel + 1 =>
    match parent tbl d with
    | none => m
    | some parentDir =>
      let m1 := if (mapLookup m (hc, parentDir)).isSome then m
                else mapInsert m (hc, parentDir) none
      if parentDir ≠ hc.category.topdir then add_parents tbl m1 hc parentDir fuel
      else m1

/-- `get_ftp_dir(hoststate, url, readable, i)`: classify the FTP reply;
reconnect-and-retry (depth guard `i > 1`) on `530` and connection drops.
The source recursion increments `i`; it is embedded with fuel 3, which the
`i > 1` guard makes unreachable to exhaust. -/
def get_ftp_dir_go (w : World) (url : String) (readable : Bool) :
    Nat → Nat → Except Exc (List String)
  | _, 0 => .error .tryLater
  | i, fuel + 1 =>
    if i > 1 then .error .tryLater
    else
      match w.ftp url i with
      | .ok lines => .ok lines
      | .permError code =>
        if pStartsWith code "550" then .ok []
        else if pStartsWith code "553" then
          if readable then .ok [] else .error .forbiddenExpected
        else if pStartsWith code "530" then get_ftp_dir_go w url readable (i + 1) fuel
        else if pStartsWith code "500" then .error .tryLater
        else .error (.ftpErr code)
      | .tempError code =>
        if pStartsWith code "450" then .ok []
        else if pStartsWith code "421" then .error .tryLater
        else if pStartsWith code "425" then .error .tryLater
        else .error (.ftpErr code)
      | .connError => get_ftp_dir_go w url readable (i + 1) fuel

/-- `get_ftp_dir` entry point. -/
def get_ftp_dir (w : World) (url : String) (readable : Bool) (i : Nat) :
    Except Exc (List String) :=
  get_ftp_dir_go w url readable i 3

/-- `check_ftp_file(hoststate, url, filedata, readable)`: strip a trailing
slash, list the parent, and compare the size field of a single-line
listing.  `ForbiddenExpected` maps to verdict unknown; a listing line with
fewer than 5 fields raises IndexError (`pyError`). -/
def check_ftp_file (w : World) (url : String) (fsize : String) (readable : Bool) :
    Except Exc (Option Bool) :=
  let url1 := if pEndsWith url "/" then pDropRight url 1 else url
  match get_ftp_dir w url1 readable 0 with
  | .error .forbiddenExpected => .ok none
  | .error e => .error e
  | .ok results =>
    match results with
    | [r] =>
      let line := pySplit r
      match line.get? 4 with
      | none => .error .pyError
      | some f => if f = fsize then .ok (some true) else .ok (some false)
    | _ => .ok (some false)

/-- Call tags for the mutually recursive HTTP probe trio
`check_url` / `check_head` / `handle_redirect`. -/
inductive HttpPhase where
  | url (u : String)
  | head (u : String) (retry : Nat)
  | redirect (u : String) (location : Option String)
deriving DecidableEq

/-- The mutually recursive `check_url` / `check_head` / `handle_redirect`
of the source, defunctionalised into one structurally recursive step
function on a call tag plus fuel.  The `recursion > 10` guard bounds every
call chain by far fewer than 100 steps, so the fuel-exhaustion branch is
dead code for the fuel the wrappers pass. -/
def http_step (w : World) (fsize : String) (readable : Bool) :
    Nat → HttpPhase → Nat → Except Exc (Option Bool)
  | 0, _, _ => .error .httpUnknown
  | fuel + 1, .url u, recursion =>
    if pStartsWith u "http:" then http_step w fsize readable fuel (.head u 0) recursion
    else if pStartsWith u "ftp:" then check_ftp_file w u fsize readable
    else .ok none
  | fuel + 1, .head u retry, recursion =>
    if w.openOk u then
      match w.resp u retry with
      | none =>
        if retry = 0 then http_step w fsize readable fuel (.head u 1) recursion
        else .error .httpUnknown
      | some r =>
        if 200 ≤ r.status ∧ r.status < 300 then
          if some fsize = r.contentLength ∨ r.contentLength = none then .ok (some true)
          else .ok (some false)
        else if 300 ≤ r.status ∧ r.status < 400 then
          http_step w fsize readable fuel (.redirect u r.location) recursion
        else if 400 ≤ r.status ∧ r.status < 500 then
          if r.status = 403 then
            if readable then .ok (some false) else .error .forbiddenExpected
          else if r.status = 404 ∨ r.status = 410 then .ok (some false)
          else .ok none
        else if 500 ≤ r.status then .error .http500
        else .error .httpUnknown
    else .ok none
  | fuel + 1, .redirect u loc, recursion =>
    if recursion > 10 then .error .httpUnknown
    else
      match loc with
      | none => .error .pyError
      | some location =>
        let location1 :=
          if pStartsWith location "/" then
            let s := urlsplit u
            s.1 ++ ":" ++ s.2.1 ++ location
          else location
        http_step w fsize readable fuel (.url location1) (recursion + 1)

/-- `check_url(hoststate, url, filedata, recursion, readable)`. -/
def check_url (w : World) (url : String) (fsize : String) (recursion : Nat)
    (readable : Bool) : Except Exc (Option Bool) :=
  http_step w fsize readable 100 (.url url) recursion

/-- `check_head(hoststate, url, filedata, recursion, readable, retry)`. -/
def check_head (w : World) (url : String) (fsize : String) (recursion : Nat)
    (readable : Bool) (retry : Nat) : Except Exc (Option Bool) :=
  http_step w fsize readable 100 (.head url retry) recursion

/-- `handle_redirect(hoststate, url, location, filedata, recursion, readable)`. -/
def handle_redirect (w : World) (url : String) (location : Option String)
    (fsize : String) (recursion : Nat) (readable : Bool) : Except Exc (Option Bool) :=
  http_step w fsize readable 100 (.redirect url location) recursion

/-- `compare_sha256(d, filename, graburl)`: fetch the body, hash it, and
scan the `FileDetails` of `d` for a matching filename with that sha256.
A failing fetch raises (`pyError`), which the caller swallows. -/
def compare_sha256 (w : World) (d : Directory) (filename : String)
    (graburl : String) : Except Exc Bool :=
  match w.urlread graburl with
  | none => .error .pyError
  | some body =>
    let sha := w.sha256fn body
    .ok (d.fileDetails.any
      (fun fd => fd.filename == filename && fd.sha256.isSome && fd.sha256 == some sha))

/-- The `repomd.xml` special case of `try_per_file`: on that filename,
fetch and hash the body (`compare_sha256`), swallowing any exception of
the fetch (`except: pass`, keeping the HEAD-derived verdict). -/
def tpf_repomd (w : World) (d : Directory) (filename graburl : String)
    (ex1 : Option Bool) : Option Bool :=
  if filename == "repomd.xml" then
    match compare_sha256 w d filename graburl with
    | .error _ => ex1
    | .ok b => some b
  else ex1

/-- The per-file loop of `try_per_file`: `exists_` carries the verdict of
the previous file (the loop variable `exists`), the final verdict is the
last file's (unknown when there were no files).  `TryLater` is re-raised;
`ForbiddenExpected`, `ftplib` errors and the bare `except:` all map the
file to verdict unknown for the whole directory. -/
def tpf_go (w : World) (d : Directory) (url : String) :
    List (String × String) → Option Bool → Except Exc (Option Bool)
  | [], exists_ =>
    match exists_ with
    | none => .ok none
    | some _ => .ok (some true)
  | (filename, fsize) :: rest, _ =>
    let graburl := url ++ "/" ++ filename
    match check_url w graburl fsize 0 d.readable with
    | .error .tryLater => .error .tryLater
    | .error .forbiddenExpected => .ok none
    | .error (.ftpErr _) => .ok none
    | .error _ => .ok none
    | .ok ex1 =>
      if ex1 = some false then .ok (some false)
      else
        let ex2 := tpf_repomd w d filename graburl ex1
        if ex2 = some false then .ok (some false)
        else tpf_go w d url rest ex2

/-- `try_per_file(d, hoststate, url)`: HEAD every expected file of `d`. -/
def try_per_file (w : World) (d : Directory) (url : String) :
    Except Exc (Option Bool) :=
  match d.files with
  | none => .ok none
  | some files => tpf_go w d url files none

/-- The per-file comparison loop of `try_per_dir`: a missing filename or a
size mismatch (both caught by the source's `except: return False`) makes
the directory stale. -/
def tpd_files (results : List (String × String)) :
    List (String × String) → Bool
  | [] => true
  | (fname, fsize) :: rest =>
    match mapLookup results fname with
    | none => false
    | some sz => if sz ≠ fsize then false else tpd_files results rest

/-- `try_per_dir(d, hoststate, url)`: one FTP `LIST`, parse field 8 as the
name and field 4 as the size of each line (skipping `total` lines and
lines with too few fields), then compare every expected file. -/
def try_per_dir (w : World) (d : Directory) (url : String) :
    Except Exc (Option Bool) :=
  match d.files with
  | none => .ok none
  | some files =>
    if ¬ pStartsWith url "ftp" then .ok none
    else
      let url1 := if pEndsWith url "/" then url else url ++ "/"
      match get_ftp_dir w url1 d.readable 0 with
      | .error e => .error e
      | .ok listing =>
        if listing.length = 0 then .ok (some false)
        else
          let results := listing.foldl (fun acc line =>
            if pStartsWith line "total" then acc
            else
              match (pySplit line).get? 8, (pySplit line).get? 4 with
              | some f8, some f4 => mapInsert acc f8 f4
              | _, _ => acc) ([] : List (String × String))
          .ok (some (tpd_files results files))

/-- The directory probe of the walker's loop (per_host lines 891-893):
`try_per_dir`, then `try_per_file` when the former is indifferent. -/
def probe_dir (w : World) (d : Directory) (url : String) :
    Except Exc (Option Bool) :=
  match try_per_dir w d url with
  | .error e => .error e
  | .ok none => try_per_file w d url
  | .ok (some b) => .ok (some b)

/-- `mark_not_up2date`: set the host not-up-to-date flag, stamp
`lastCrawled` (elided) and attempt a notification email. -/
def mark_not_up2date (ws : WalkState) : WalkState :=
  { marked := true, emails := ws.emails + 1, sleeps := ws.sleeps }

/-- The per-directory loop of `try_per_category` (the rsync probe): for
each HostCategoryDir row, check the deadline, give unreadable directories
verdict unknown, and compare every expected file against the rsync
listing (symlinks exempt from the size check); on success record `true`
and propagate to parents.  A row with no `Directory`, or a directory with
unknown contents, raises AttributeError (`pyError`). -/
def cat_dirs (w : World) (opts : Options) (hc : HostCategory)
    (rsyncMap : List (String × RsyncEnt)) (prefixLen : Nat) :
    List HCDRow → Nat → VerdictMap → (Except Exc Unit) × VerdictMap × Nat
  | [], tick, m => (.ok (), m, tick)
  | row :: rest, tick, m =>
    let elapsed := w.clock tick
    if elapsed > opts.timeout_minutes * 60 then (.error .timeoutExc, m, tick + 1)
    else
      match row.directory with
      | none => (.error .pyError, m, tick + 1)
      | some d =>
        if ¬ d.readable then
          cat_dirs w opts hc rsyncMap prefixLen rest (tick + 1) (mapInsert m (hc, d) none)
        else
          match d.files with
          | none => (.error .pyError, m, tick + 1)
          | some files =>
            let name := pDrop d.name prefixLen
            let all_files := files.all (fun fp =>
              let key := if pLen name = 0 then fp.1 else name ++ "/" ++ fp.1
              match mapLookup rsyncMap key with
              | none => false
              | some ent => ent.size == fp.2 || pStartsWith ent.mode "l")
            if all_files = false then
              cat_dirs w opts hc rsyncMap prefixLen rest (tick + 1)
                (mapInsert m (hc, d) (some false))
            else
              let m1 := mapInsert m (hc, d) (some true)
              let m2 := add_parents w.dirTable m1 hc d (pLen d.name + 2)
              cat_dirs w opts hc rsyncMap prefixLen rest (tick + 1) m2

/-- Result of `try_per_category`. -/
structure CatRes where
  res : Except Exc (Option Bool)
  m : VerdictMap
  ws : WalkState
  tick : Nat

/-- `try_per_category`: scan a whole category with one rsync listing.
Returns unknown for non-rsync URLs; a failed spawn, exit code 10 or an
empty listing fail the category; afterwards `True` iff the verdict map is
non-empty, else the host is marked not-up-to-date and `False` returned. -/
def try_per_category (w : World) (opts : Options) (hc : HostCategory)
    (url : String) (prefixLen : Nat) (trydirs : List HCDRow) (tick : Nat)
    (m : VerdictMap) (ws : WalkState) : CatRes :=
  if ¬ pStartsWith url "rsync" then ⟨.ok none, m, ws, tick⟩
  else
    let url1 := if pEndsWith url "/" then url else url ++ "/"
    match w.rsync url1 with
    | none => ⟨.ok (some false), m, ws, tick⟩
    | some (result, lines) =>
      if result = 10 then ⟨.ok (some false), m, ws, tick⟩
      else
        let rsyncMap := lines.foldl (fun acc line =>
          match pySplit line with
          | f0 :: f1 :: f2 :: f3 :: f4 :: _ => mapInsert acc f4 ⟨f0, f1, f2, f3⟩
          | _ => acc) ([] : List (String × RsyncEnt))
        if rsyncMap.length = 0 then ⟨.ok (some false), m, ws, tick⟩
        else
          match cat_dirs w opts hc rsyncMap prefixLen trydirs tick m with
          | (.error e, m1, tick1) => ⟨.error e, m1, ws, tick1⟩
          | (.ok (), m1, tick1) =>
            if m1.length > 0 then ⟨.ok (some true), m1, ws, tick1⟩
            else ⟨.ok (some false), m1, mark_not_up2date ws, tick1⟩

/-- An element of the list built by `select_host_categories_to_scan`.
The source appends either a `HostCategory` (no-filter branch) or — due to
the bug in the filter branch, where the loop variable `entry` is unused —
the whole query-result list; a dynamic language permits both, so the
embedding is a sum. -/
inductive ScanElem where
  | hcElem (hc : HostCategory)
  | hcList (l : List HostCategory)
deriving DecidableEq

/-- `select_host_categories_to_scan(session, options, host)`: with a
`--category` filter, for each name queried, append the query-result list
itself once per entry (`result.append(hc)`, not `entry`); with no filter,
all of the host's categories. -/
def select_host_categories_to_scan (hcQuery : Nat → String → List HostCategory)
    (categories : List String) (host : Host) : List ScanElem :=
  if categories.length ≠ 0 then
    categories.foldl (fun acc category =>
      let hc := hcQuery host.id category
      acc ++ hc.map (fun _ => ScanElem.hcList hc)) []
  else host.categories.map ScanElem.hcElem

/-- Result of the per-directory walk loop: the pending exception (if the
loop unwound), verdict map, walk effects, clock tick, current back-off
delay and the host exit code `rc`. -/
structure DirRes where
  res : Except Exc Unit
  m : VerdictMap
  ws : WalkState
  tick : Nat
  delay : Nat
  rc : Nat

/-- The directory loop of `per_host` (lines 873-929): deadline check at
each directory boundary, skip unreadable (and, in canary mode,
non-canary) directories, probe, record the verdict and propagate parents
on `True`; on `TryLater` sleep the current delay, double it below the cap
of 8, and continue with the NEXT directory; on any other exception mark
the host not-up-to-date, set `rc = 1` and break out of the loop. -/
def walk_dirs (w : World) (opts : Options) (hc : HostCategory)
    (categoryUrl : String) (prefixLen : Nat) :
    List HCDRow → Nat → Nat → VerdictMap → WalkState → Nat → DirRes
  | [], delay, tick, m, ws, rc => ⟨.ok (), m, ws, tick, delay, rc⟩
  | row :: rest, delay, tick, m, ws, rc =>
    let elapsed := w.clock tick
    if elapsed > opts.timeout_minutes * 60 then
      ⟨.error .timeoutExc, m, ws, tick + 1, delay, rc⟩
    else
      match row.directory with
      | none => ⟨.error .pyError, m, ws, tick + 1, delay, rc⟩
      | some d =>
        if ¬ d.readable then
          walk_dirs w opts hc categoryUrl prefixLen rest delay (tick + 1) m ws rc
        else if opts.canary &&
            !(pEndsWith d.name "/repodata" || pEndsWith d.name "/iso") then
          walk_dirs w opts hc categoryUrl prefixLen rest delay (tick + 1) m ws rc
        else
          let dirname := pDrop d.name prefixLen
          let url := categoryUrl ++ "/" ++ dirname
          match probe_dir w d url with
          | .ok (some false) =>
            walk_dirs w opts hc categoryUrl prefixLen rest delay (tick + 1)
              (mapInsert m (hc, d) (some false)) ws rc
          | .ok (some true) =>
            let m1 := mapInsert m (hc, d) (some true)
            let m2 := add_parents w.dirTable m1 hc d (pLen d.name + 2)
            walk_dirs w opts hc categoryUrl prefixLen rest delay (tick + 1) m2 ws rc
          | .ok none =>
            walk_dirs w opts hc categoryUrl prefixLen rest delay (tick + 1) m ws rc
          | .error .tryLater =>
            let ws1 := { ws with sleeps := ws.sleeps ++ [delay] }
            let delay1 := if delay < 8 then delay * 2 else delay
            walk_dirs w opts hc categoryUrl prefixLen rest delay1 (tick + 1) m ws1 rc
          | .error _ =>
            ⟨.ok (), m, mark_not_up2date ws, tick + 1, delay, 1⟩

/-- Result of the category loop of `per_host`. -/
structure CatsRes where
  res : Except Exc Unit
  m : VerdictMap
  ws : WalkState
  tick : Nat
  rc : Nat

/-- The category loop of `per_host`: skip `always_up2date` categories and
categories with no preferred URL; try the rsync probe, and when it is
indifferent re-select the method (with the rsync URL as previous choice)
and run the directory loop with back-off delay 1.  Iterating a `hcList`
element (the `--category` bug) raises AttributeError (`pyError`). -/
def walk_categories (w : World) (opts : Options) (host : Host)
    (rows : List HCDRow) :
    List ScanElem → Nat → VerdictMap → WalkState → Nat → CatsRes
  | [], tick, m, ws, rc => ⟨.ok (), m, ws, tick, rc⟩
  | ScanElem.hcList _ :: _, tick, m, ws, rc => ⟨.error .pyError, m, ws, tick, rc⟩
  | ScanElem.hcElem hc :: rest, tick, m, ws, rc =>
    if hc.always_up2date then walk_categories w opts host rows rest tick m ws rc
    else
      match method_pref hc.urls "" with
      | none => walk_categories w opts host rows rest tick m ws rc
      | some categoryUrl =>
        let prefixLen := pLen hc.category.topdir.name + 1
        let trydirs := rows.filter (fun r => r.host_category_id == hc.id)
        match try_per_category w opts hc categoryUrl prefixLen trydirs tick m ws with
        | ⟨.error e, m1, ws1, tick1⟩ => ⟨.error e, m1, ws1, tick1, rc⟩
        | ⟨.ok (some _), m1, ws1, tick1⟩ =>
          walk_categories w opts host rows rest tick1 m1 ws1 rc
        | ⟨.ok none, m1, ws1, tick1⟩ =>
          let categoryUrl2 := (method_pref hc.urls categoryUrl).getD "None"
          match walk_dirs w opts hc categoryUrl2 prefixLen trydirs 1 tick1 m1 ws1 rc with
          | ⟨.error e, m2, ws2, tick2, _, rc2⟩ => ⟨.error e, m2, ws2, tick2, rc2⟩
          | ⟨.ok (), m2, ws2, tick2, _, rc2⟩ =>
            walk_categories w opts host rows rest tick2 m2 ws2 rc2

/-- The stats dictionary of `sync_hcds`, a Python dict of counters. -/
abbrev StatsL := List (String × Nat)

/-- The initializer `dict(up2date=0, not_up2date=0, unchanged=0, unknown=0,
newdir=0, deleted_on_master=0)`.  Note there is no `unreadable` key. -/
def statsInit : StatsL :=
  [("up2date", 0), ("not_up2date", 0), ("unchanged", 0), ("unknown", 0),
   ("newdir", 0), ("deleted_on_master", 0)]

/-- `stats[k] += 1`: a `KeyError` when the key was never initialized. -/
def statsIncr (st : StatsL) (k : String) : Except Exc StatsL :=
  match mapLookup st k with
  | some _ => .ok (st.map (fun p => if p.1 = k then (p.1, p.2 + 1) else p))
  | none => .error (.keyError k)

/-- `stats[k] = n` (plain assignment, total). -/
def statsSet (st : StatsL) (k : String) (n : Nat) : StatsL :=
  mapInsert st k n

/-- `stats[k]` read access. -/
def statsGet (st : StatsL) (k : String) : Except Exc Nat :=
  match mapLookup st k with
  | some n => .ok n
  | none => .error (.keyError k)

/-- `report_stats(stats)`: reads the seven final counters (log output
itself is elided). -/
def report_stats (st : StatsL) : Except Exc Unit :=
  match statsGet st "numkeys", statsGet st "up2date", statsGet st "not_up2date",
      statsGet st "unchanged", statsGet st "unknown", statsGet st "newdir",
      statsGet st "deleted_on_master" with
  | .ok _, .ok _, .ok _, .ok _, .ok _, .ok _, .ok _ => .ok ()
  | _, _, _, _, _, _, _ => .error (.keyError "report")

/-- `get_hostcategorydir_by_hostcategoryid_and_path` followed by `[0]`:
the first row whose (host_category_id, path) matches. -/
def findRow (rows : List HCDRow) (hcid : Nat) (path : String) : Option HCDRow :=
  rows.find? (fun r => r.host_category_id == hcid && r.path == path)

/-- Replace the first row with the given key (mutation of the fetched ORM
object in place). -/
def replaceRow : List HCDRow → Nat → String → HCDRow → List HCDRow
  | [], _, _, _ => []
  | r :: rest, hcid, path, newr =>
    if r.host_category_id = hcid ∧ r.path = path then newr :: rest
    else r :: replaceRow rest hcid path newr

/-- Stable insertion into a list sorted by directory name. -/
def insertByName (x : HostCategory × Directory) :
    List (HostCategory × Directory) → List (HostCategory × Directory)
  | [] => [x]
  | y :: rest =>
    if pLt y.2.name x.2.name then y :: insertByName x rest else x :: y :: rest

/-- `sorted(keys, key=lambda t: t[1].name)` (Python's stable sort). -/
def sortKeys : List (HostCategory × Directory) → List (HostCategory × Directory)
  | [] => []
  | x :: rest => insertByName x (sortKeys rest)

/-- `if hcd.directory is None: hcd.directory = d` of the main pass. -/
def fix_directory (hcd : HCDRow) (d : Directory) : HCDRow :=
  if hcd.directory = none then { hcd with directory := some d } else hcd

/-- The main pass of `sync_hcds` over the sorted verdict keys: count
unknowns; look an HCD row up by (hc.id, path); a missing row with a
negative verdict is skipped, a missing row with verdict `True` is created
(`newdir`); bind a null `directory` to `d`; update `up2date` when it
changed (counting `up2date`/`not_up2date`), else count `unchanged`; and
record the row key in the `current` set. -/
def main_pass (m : VerdictMap) :
    List (HostCategory × Directory) → List HCDRow → StatsL → List (Nat × String) →
    Except Exc (List HCDRow × StatsL × List (Nat × String))
  | [], rows, stats, cur => .ok (rows, stats, cur)
  | (hc, d) :: rest, rows, stats, cur =>
    match (mapLookup m (hc, d)).getD none with
    | none =>
      match statsIncr stats "unknown" with
      | .error e => .error e
      | .ok stats1 => main_pass m rest rows stats1 cur
    | some v =>
      let topname := hc.category.topdir.name
      let path := pDrop d.name (pLen topname + 1)
      match findRow rows hc.id path with
      | some hcd0 =>
        let hcd1 := fix_directory hcd0 d
        if hcd1.up2date ≠ some v then
          let hcd2 := { hcd1 with up2date := some v }
          let statKey := if v = false then "not_up2date" else "up2date"
          match statsIncr stats statKey with
          | .error e => .error e
          | .ok stats1 =>
            main_pass m rest (replaceRow rows hc.id path hcd2) stats1
              (cur ++ [(hc.id, path)])
        else
          match statsIncr stats "unchanged" with
          | .error e => .error e
          | .ok stats1 =>
            main_pass m rest (replaceRow rows hc.id path hcd1) stats1
              (cur ++ [(hc.id, path)])
      | none =>
        if v = false then main_pass m rest rows stats cur
        else
          match statsIncr stats "newdir" with
          | .error e => .error e
          | .ok stats1 =>
            let hcd0 : HCDRow := ⟨hc.id, path, none, none⟩
            let hcd1 := fix_directory hcd0 d
            if hcd1.up2date ≠ some v then
              let hcd2 := { hcd1 with up2date := some v }
              let statKey := if v = false then "not_up2date" else "up2date"
              match statsIncr stats1 statKey with
              | .error e => .error e
              | .ok stats2 =>
                main_pass m rest (rows ++ [hcd2]) stats2 (cur ++ [(hc.id, path)])
            else
              match statsIncr stats1 "unchanged" with
              | .error e => .error e
              | .ok stats2 =>
                main_pass m rest (rows ++ [hcd1]) stats2 (cur ++ [(hc.id, path)])

/-- The inner loop of the post-pass of `sync_hcds` over the rows of one
host category: rows whose directory is unreadable hit
`stats['unreadable'] += 1` — a key `statsInit` never created, hence a
`KeyError`; rows not in the `current` set are forced to `up2date=False`
and counted as `deleted_on_master`. -/
def post_hc (cur : List (Nat × String)) :
    List HCDRow → List HCDRow → StatsL → Except Exc (List HCDRow × StatsL)
  | [], rowsCur, stats => .ok (rowsCur, stats)
  | hcd :: rest, rowsCur, stats =>
    if hcd.directory.any (fun dir => !dir.readable) then
      match statsIncr stats "unreadable" with
      | .error e => .error e
      | .ok stats1 => post_hc cur rest rowsCur stats1
    else
      if (hcd.host_category_id, hcd.path) ∉ cur then
        if hcd.up2date ≠ some false then
          let hcd1 := { hcd with up2date := some false }
          match statsIncr stats "deleted_on_master" with
          | .error e => .error e
          | .ok stats1 =>
            post_hc cur rest (replaceRow rowsCur hcd.host_category_id hcd.path hcd1) stats1
        else post_hc cur rest rowsCur stats
      else post_hc cur rest rowsCur stats

/-- The post-pass of `sync_hcds`: `for hc in host.categories: for hcd in
list(hc.directories)` — the relationship is the rows of the store with
that host-category id. -/
def post_pass (host : Host) (cur : List (Nat × String)) :
    List HostCategory → List HCDRow → StatsL → Except Exc (List HCDRow × StatsL)
  | [], rowsCur, stats => .ok (rowsCur, stats)
  | hc :: rest, rowsCur, stats =>
    let snapshot := rowsCur.filter (fun r => r.host_category_id == hc.id)
    match post_hc cur snapshot rowsCur stats with
    | .error e => .error e
    | .ok (rows1, stats1) => post_pass host cur rest rows1 stats1

/-- `sync_hcds(session, host, host_category_dirs)`: stamp `last_crawled`
(elided), sort the verdict keys by directory name, run the main pass and
the post-pass, commit once, and emit the stats report. -/
def sync_hcds (host : Host) (m : VerdictMap) (s : SyncState) :
    Except Exc SyncState :=
  let keys := sortKeys (m.map Prod.fst)
  let stats := statsSet statsInit "numkeys" keys.length
  match main_pass m keys s.rows stats [] with
  | .error e => .error e
  | .ok (rows1, stats1, cur) =>
    match post_pass host cur host.categories rows1 stats1 with
    | .error e => .error e
    | .ok (rows2, stats2) =>
      let s1 : SyncState := ⟨rows2, s.commits + 1⟩
      match report_stats stats2 with
      | .error e => .error e
      | .ok () => .ok s1

/-- `per_host(session, host, options, config)`: skip private hosts (rc 1);
an empty scan list marks the host not-up-to-date (rc 1); otherwise run the
category loop, and on a clean walk (`rc == 0`) with a non-empty verdict
map run `sync_hcds`.  Exceptions of the walk (timeout) and of `sync_hcds`
propagate to the worker; the session component is returned unchanged in
that case (uncommitted mutations are discarded). -/
def per_host (w : World) (opts : Options) (host : Host) (ss : SyncState) :
    Except Exc Nat × WalkState × SyncState :=
  let ws0 : WalkState := ⟨false, 0, []⟩
  if host.private && !opts.include_private then (.ok 1, ws0, ss)
  else
    let scan := select_host_categories_to_scan w.hcQuery opts.categories host
    if scan.length = 0 then (.ok 1, mark_not_up2date ws0, ss)
    else
      match walk_categories w opts host ss.rows scan 0 [] ws0 0 with
      | ⟨.error e, _, ws, _, _⟩ => (.error e, ws, ss)
      | ⟨.ok (), m, ws, _, rc⟩ =>
        if rc = 0 then
          if m.length > 0 then
            match sync_hcds host m ss with
            | .error e => (.error e, ws, ss)
            | .ok ss1 => (.ok rc, ws, ss1)
          else (.ok rc, ws, ss)
        else (.ok rc, ws, ss)

/-- `worker(options, config, host)`: run `per_host` and commit; a
`TimeoutException` converts to exit code 2 with no commit; any other
exception to exit code 3 with no commit. -/
def worker (w : World) (opts : Options) (host : Host) (ss : SyncState) :
    Nat × WalkState × SyncState :=
  match per_host w opts host ss with
  | (.ok rc, ws, ss1) => (rc, ws, ⟨ss1.rows, ss1.commits + 1⟩)
  | (.error .timeoutExc, ws, ss1) => (2, ws, ss1)
  | (.error _, ws, ss1) => (3, ws, ss1)

/-- The host predicate of `doit`'s generator expression (lines 47-57). -/
def host_filter (o : Options) (h : Host) : Bool :=
  !(decide (h.id < o.startid)) && !(decide (h.id ≥ o.stopid)) &&
  !(h.admin_active && h.user_active && h.site.user_active && h.site.admin_active) &&
  !h.site.private

/-- The host list `doit` schedules for crawling. -/
def doit_hosts (o : Options) (hosts : List Host) : List Host :=
  hosts.filter (host_filter o)

/-- Key identifying an HCD row: (host_category_id, path). -/
def rowKey (r : HCDRow) : Nat × String := (r.host_category_id, r.path)

/-- The sleep durations the walker's back-off produces from a delay of
`2 ^ k` (capped at 8): `j` sleeps, the i-th of `min (2 ^ (k + i)) 8`. -/
def sleepSeq (k j : Nat) : List Nat :=
  (List.range j).map (fun i => min (2 ^ (k + i)) 8)

/-! Concrete inputs used by the claim theorems.  Each claim `Cn` has its
own constants prefixed `cn`. -/

/-- C1: the category topdir. -/
def c1Top : Directory := ⟨1, "top", true, some [], []⟩

/-- C1: a readable directory with one expected file. -/
def c1Good : Directory := ⟨2, "top/good", true, some [("f", "10")], []⟩

/-- C1: an unreadable directory. -/
def c1Bad : Directory := ⟨3, "top/bad", false, some [], []⟩

/-- C1: the host category. -/
def c1Hc : HostCategory := ⟨11, false, ["ftp:h1"], ⟨"c1", c1Top⟩⟩

/-- C1: the host. -/
def c1Host : Host := ⟨1, "h1", false, false, false, ⟨false, false, false⟩, [c1Hc]⟩

/-- C1: a verdict map with one positive verdict. -/
def c1Map : VerdictMap := [((c1Hc, c1Good), some true)]

/-- C1: a session whose store holds one pre-existing HCD row whose
directory is unreadable. -/
def c1SS : SyncState := ⟨[⟨11, "bad", some c1Bad, some true⟩], 0⟩

/-- C1: the session store for the end-to-end run: the unreadable-directory
row plus the row of the readable directory the walker will probe. -/
def c1SSb : SyncState :=
  ⟨[⟨11, "good", some c1Good, none⟩, ⟨11, "bad", some c1Bad, some true⟩], 0⟩

/-- C1: a world where the FTP listing of the readable directory matches,
so the walker ends with rc 0 and a non-empty verdict map. -/
def c1World : World := ⟨fun _ => true, fun _ _ => none,
  (fun u _ => if u = "ftp:h1/good/" then .ok ["-rw-r--r-- 1 o g 10 Jan 1 2020 f"]
   else .connError),
  fun _ => none, fun _ => "", fun _ => none, fun _ => 0, [c1Top, c1Good, c1Bad],
  fun _ _ => []⟩

/-- C1: default options. -/
def c1Opts : Options := ⟨false, 120, 0, 1000, [], false⟩

/-- C2: the category topdir. -/
def c2Top : Directory := ⟨1, "top2", true, some [], []⟩

/-- C2: the first directory of the category; every probe of it signals
try-later (FTP reply `500`). -/
def c2D1 : Directory := ⟨2, "top2/a", true, some [("f", "10")], []⟩

/-- C2: the second directory; its FTP listing matches. -/
def c2D2 : Directory := ⟨3, "top2/b", true, some [("f1", "10")], []⟩

/-- C2: the host category. -/
def c2Hc : HostCategory := ⟨21, false, ["ftp:h2"], ⟨"c2", c2Top⟩⟩

/-- C2: the world: directory `a` answers `500` (try-later) on every
attempt, directory `b` lists one matching file. -/
def c2World : World := ⟨fun _ => true, fun _ _ => none,
  (fun u _ => if u = "ftp:h2/a/" then .permError "500 oops"
   else if u = "ftp:h2/b/" then .ok ["-rw-r--r-- 1 o g 10 Jan 1 2020 f1"]
   else .connError),
  fun _ => none, fun _ => "", fun _ => none, fun _ => 0, [c2Top, c2D1, c2D2],
  fun _ _ => []⟩

/-- C2: default options. -/
def c2Opts : Options := ⟨false, 120, 0, 1000, [], false⟩

/-- C2: the two HCD rows the walker iterates. -/
def c2Rows : List HCDRow := [⟨21, "a", some c2D1, none⟩, ⟨21, "b", some c2D2, none⟩]

/-- C3: the category topdir. -/
def c3Top : Directory := ⟨1, "top3", true, some [], []⟩

/-- C3: a readable directory with one expected file. -/
def c3Dir : Directory := ⟨2, "top3/s", true, some [("f", "10")], []⟩

/-- C3: the host category (HTTP only). -/
def c3Hc : HostCategory := ⟨31, false, ["http:h3"], ⟨"c3", c3Top⟩⟩

/-- C3: the host. -/
def c3Host : Host := ⟨3, "h3", false, false, false, ⟨false, false, false⟩, [c3Hc]⟩

/-- C3: a world whose only HTTP response is a 500 for the probed file. -/
def c3World : World := ⟨fun _ => true,
  (fun u _ => if u = "http:h3/s/f" then some ⟨500, none, none⟩ else none),
  fun _ _ => .connError, fun _ => none, fun _ => "", fun _ => none, fun _ => 0,
  [c3Top, c3Dir], fun _ _ => []⟩

/-- C3: default options. -/
def c3Opts : Options := ⟨false, 120, 0, 1000, [], false⟩

/-- C3: the session store with the probed directory's row. -/
def c3SS : SyncState := ⟨[⟨31, "s", some c3Dir, none⟩], 0⟩

/-- C4: the category topdir. -/
def c4Top : Directory := ⟨1, "top4", true, some [], []⟩

/-- C4: the middle directory of the chain. -/
def c4Mid : Directory := ⟨2, "top4/m", true, some [], []⟩

/-- C4: the leaf directory whose verdict is true. -/
def c4Leaf : Directory := ⟨3, "top4/m/l", true, some [("f", "1")], []⟩

/-- C4: the host category. -/
def c4Hc : HostCategory := ⟨41, false, ["http:h4"], ⟨"c4", c4Top⟩⟩

/-- C4: the directory table. -/
def c4Tbl : List Directory := [c4Top, c4Mid, c4Leaf]

/-- C4: a verdict map holding only the leaf's true verdict. -/
def c4Map : VerdictMap := [((c4Hc, c4Leaf), some true)]

/-- C6: world with a chain of 11 redirects ending in a matching 200. -/
def c6World11 : World := ⟨fun _ => true,
  (fun u _ =>
    if u = "http:r0" then some ⟨301, none, some "http:r1"⟩
    else if u = "http:r1" then some ⟨301, none, some "http:r2"⟩
    else if u = "http:r2" then some ⟨301, none, some "http:r3"⟩
    else if u = "http:r3" then some ⟨301, none, some "http:r4"⟩
    else if u = "http:r4" then some ⟨301, none, some "http:r5"⟩
    else if u = "http:r5" then some ⟨301, none, some "http:r6"⟩
    else if u = "http:r6" then some ⟨301, none, some "http:r7"⟩
    else if u = "http:r7" then some ⟨301, none, some "http:r8"⟩
    else if u = "http:r8" then some ⟨301, none, some "http:r9"⟩
    else if u = "http:r9" then some ⟨301, none, some "http:r10"⟩
    else if u = "http:r10" then some ⟨301, none, some "http:r11"⟩
    else if u = "http:r11" then some ⟨200, some "5", none⟩
    else none),
  fun _ _ => .connError, fun _ => none, fun _ => "", fun _ => none, fun _ => 0,
  [], fun _ _ => []⟩

/-- C6: world with a chain of 12 redirects starting at the probed file
URL `http:v/f`. -/
def c6World12 : World := ⟨fun _ => true,
  (fun u _ =>
    if u = "http:v/f" then some ⟨301, none, some "http:v1"⟩
    else if u = "http:v1" then some ⟨301, none, some "http:v2"⟩
    else if u = "http:v2" then some ⟨301, none, some "http:v3"⟩
    else if u = "http:v3" then some ⟨301, none, some "http:v4"⟩
    else if u = "http:v4" then some ⟨301, none, some "http:v5"⟩
    else if u = "http:v5" then some ⟨301, none, some "http:v6"⟩
    else if u = "http:v6" then some ⟨301, none, some "http:v7"⟩
    else if u = "http:v7" then some ⟨301, none, some "http:v8"⟩
    else if u = "http:v8" then some ⟨301, none, some "http:v9"⟩
    else if u = "http:v9" then some ⟨301, none, some "http:v10"⟩
    else if u = "http:v10" then some ⟨301, none, some "http:v11"⟩
    else if u = "http:v11" then some ⟨301, none, some "http:v12"⟩
    else if u = "http:v12" then some ⟨200, some "5", none⟩
    else none),
  fun _ _ => .connError, fun _ => none, fun _ => "", fun _ => none, fun _ => 0,
  [], fun _ _ => []⟩

/-- C6: the directory whose single expected file sits behind the
12-redirect chain. -/
def c6Dir : Directory := ⟨2, "top6/s", true, some [("f", "5")], []⟩

/-- C7: the category topdir. -/
def c7Top : Directory := ⟨1, "top7", true, some [], []⟩

/-- C7: the matching host category of category name `CatA`. -/
def c7Hc : HostCategory := ⟨71, false, ["http:h7"], ⟨"CatA", c7Top⟩⟩

/-- C7: the host. -/
def c7Host : Host := ⟨7, "h7", false, false, false, ⟨false, false, false⟩, [c7Hc]⟩

/-- C7: the host-category catalog query. -/
def c7Query : Nat → String → List HostCategory :=
  fun hid c => if hid = 7 && c = "CatA" then [c7Hc] else []

/-- C7: world carrying the catalog query. -/
def c7World : World := ⟨fun _ => true, fun _ _ => none, fun _ _ => .connError,
  fun _ => none, fun _ => "", fun _ => none, fun _ => 0, [], c7Query⟩

/-- C7: options with a `--category CatA` filter. -/
def c7Opts : Options := ⟨false, 120, 0, 1000, ["CatA"], false⟩

/-- C8: the category topdir. -/
def c8Top : Directory := ⟨1, "top8", true, some [], []⟩

/-- C8: the directory with the true verdict. -/
def c8Dir : Directory := ⟨2, "top8/x", true, some [("f", "10")], []⟩

/-- C8: the host category. -/
def c8Hc : HostCategory := ⟨81, false, ["http:h8"], ⟨"c8", c8Top⟩⟩

/-- C8: the host. -/
def c8Host : Host := ⟨8, "h8", false, false, false, ⟨false, false, false⟩, [c8Hc]⟩

/-- C8: a verdict map with one true verdict. -/
def c8Map : VerdictMap := [((c8Hc, c8Dir), some true)]

/-- C8: the row `sync_hcds` creates for the true verdict. -/
def c8Row : HCDRow := ⟨81, "x", some c8Dir, some true⟩

/-- C9: a world whose clock reads 1 at every deadline check. -/
def c9World : World := ⟨fun _ => true, fun _ _ => none, fun _ _ => .connError,
  fun _ => none, fun _ => "", fun _ => none, fun _ => 1, [c3Top, c3Dir],
  fun _ _ => []⟩

/-- C9: options with a zero-minute deadline. -/
def c9Opts : Options := ⟨false, 0, 0, 1000, [], false⟩

/-- C10: a fully activated host (all four activation flags true). -/
def c10Host : Host := ⟨5, "h10", false, true, true, ⟨true, true, false⟩, []⟩

/-- C10: default options. -/
def c10Opts : Options := ⟨false, 120, 0, 1000, [], false⟩

/-! ## Theorems -/

/-- C1: the claim asserts that after a clean walk (rc 0, non-empty verdict
map) the post-pass of ResultSync skips every HCD whose directory is
unreadable, marks readable HCDs missing from the current set not-up-to-date,
commits once with a stats report, and that an unreadable-directory HCD never
aborts the sync.  The code however executes `stats['unreadable'] += 1` on a
stats dictionary that never initializes the key `unreadable`, so the first
pre-existing HCD with an unreadable directory raises `KeyError` inside the
post-pass, the sync aborts before the commit, and the worker ends with exit
code 3 and zero commits. -/
theorem C1_unreadable_hcd_aborts_sync :
    sync_hcds c1Host c1Map c1SS = .error (.keyError "unreadable") ∧
    (per_host c1World c1Opts c1Host c1SSb).1 = .error (.keyError "unreadable") ∧
    (worker c1World c1Opts c1Host c1SSb).1 = 3 ∧
    (worker c1World c1Opts c1Host c1SSb).2.2.commits = 0 :=
  ⟨rfl, rfl, rfl, rfl⟩

/-- C5 counterexample: when the previous choice is an rsync URL the claim
says `method_pref` returns null, but on `["rsync:a", "http:b"]` with
previous choice `"rsync:a"` it returns the http URL. -/
theorem C5_counterexample :
    method_pref ["rsync:a", "http:b"] "rsync:a" = some "http:b" := rfl

/-- A string whose prefix list starts with `c` itself starts with `c`. -/
theorem pStartsWith_head (u pre : String) (c : Char) (rest : List Char)
    (hpre : pre.data = c :: rest) (h : pStartsWith u pre = true) :
    ∃ t, u.data = c :: t := by
  unfold pStartsWith at h
  rw [hpre] at h
  cases hu : u.data with
  | nil =>
    rw [hu] at h
    simp at h
  | cons b bs =>
    rw [hu, List.isPrefixOf_cons₂, Bool.and_eq_true] at h
    have hcb : c = b := by
      have h2 := h.1
      simpa using h2
    exact ⟨bs, by rw [hcb]⟩

/-- Two scheme markers with different first characters cannot both be
prefixes of the same URL. -/
theorem pStartsWith_ne_head (u pre1 pre2 : String) (c1 c2 : Char)
    (rest1 rest2 : List Char) (hp1 : pre1.data = c1 :: rest1)
    (hp2 : pre2.data = c2 :: rest2) (hcc : c1 ≠ c2)
    (h : pStartsWith u pre1 = true) : pStartsWith u pre2 = false := by
  obtain ⟨t1, ht1⟩ := pStartsWith_head u pre1 c1 rest1 hp1 h
  cases h2 : pStartsWith u pre2
  · rfl
  · obtain ⟨t2, ht2⟩ := pStartsWith_head u pre2 c2 rest2 hp2 h2
    rw [ht1] at ht2
    injection ht2 with hc _
    exact absurd hc hcc

/-- An rsync URL is not an ftp URL. -/
theorem rsync_not_ftp (u : String) (h : pStartsWith u "rsync:" = true) :
    pStartsWith u "ftp:" = false :=
  pStartsWith_ne_head u "rsync:" "ftp:" 'r' 'f' ['s', 'y', 'n', 'c', ':']
    ['t', 'p', ':'] rfl rfl (by decide) h

/-- An http URL is not an ftp URL. -/
theorem http_not_ftp (u : String) (h : pStartsWith u "http:" = true) :
    pStartsWith u "ftp:" = false :=
  pStartsWith_ne_head u "http:" "ftp:" 'h' 'f' ['t', 't', 'p', ':']
    ['t', 'p', ':'] rfl rfl (by decide) h

/-- When the previous choice is rsync, or no rsync URL exists, the first
loop of `method_pref` selects nothing and the http/ftp loops decide. -/
theorem method_pref_no_rsync (urls : List String) (prev : String)
    (h : pStartsWith prev "rsync:" = true ∨
         urls.find? (fun v => pStartsWith v "rsync:") = none) :
    method_pref urls prev =
      (match urls.find? (fun v => pStartsWith v "http:") with
       | some u => some u
       | none => urls.find? (fun v => pStartsWith v "ftp:")) := by
  unfold method_pref
  rcases h with h | h
  · rw [if_pos h]
  · by_cases hp : pStartsWith prev "rsync:" = true
    · rw [if_pos hp]
    · rw [if_neg hp, h]

/-- When the previous choice is not rsync and some rsync URL exists, the
first loop of `method_pref` returns the first rsync URL. -/
theorem method_pref_rsync_hit (urls : List String) (prev x : String)
    (hp : pStartsWith prev "rsync:" = false)
    (hx : urls.find? (fun v => pStartsWith v "rsync:") = some x) :
    method_pref urls prev = some x := by
  unfold method_pref
  rw [if_neg (by simp [hp]), hx]

/-- C5 (amended): `method_pref` always returns a member of the URL list
and prefers rsync over http over ftp: with a non-rsync previous choice it
returns the first rsync URL when one exists; once rsync is out of play
(previous choice rsync, or no rsync URL) it returns the first http URL
when one exists, else the first ftp URL when one exists; with an rsync
previous choice the result is null exactly when the list has neither an
http nor an ftp URL, the result is never an rsync URL, and — whenever an
http URL exists — never an ftp URL. -/
theorem C5_method_pref_characterization : ∀ (urls : List String) (prev : String),
    (∀ u, method_pref urls prev = some u → u ∈ urls) ∧
    (pStartsWith prev "rsync:" = false →
      (∃ r ∈ urls, pStartsWith r "rsync:" = true) →
      method_pref urls prev = urls.find? (fun v => pStartsWith v "rsync:") ∧
      ∃ u, method_pref urls prev = some u ∧ pStartsWith u "rsync:" = true) ∧
    ((pStartsWith prev "rsync:" = true ∨
        urls.find? (fun v => pStartsWith v "rsync:") = none) →
      (∃ h ∈ urls, pStartsWith h "http:" = true) →
      method_pref urls prev = urls.find? (fun v => pStartsWith v "http:") ∧
      ∃ u, method_pref urls prev = some u ∧ pStartsWith u "http:" = true) ∧
    ((pStartsWith prev "rsync:" = true ∨
        urls.find? (fun v => pStartsWith v "rsync:") = none) →
      (∀ x ∈ urls, pStartsWith x "http:" = false) →
      (∃ f ∈ urls, pStartsWith f "ftp:" = true) →
      method_pref urls prev = urls.find? (fun v => pStartsWith v "ftp:") ∧
      ∃ u, method_pref urls prev = some u ∧ pStartsWith u "ftp:" = true) ∧
    (pStartsWith prev "rsync:" = true →
      (method_pref urls prev = none ↔
        (∀ x ∈ urls, pStartsWith x "http:" = false) ∧
        (∀ x ∈ urls, pStartsWith x "ftp:" = false))) ∧
    (pStartsWith prev "rsync:" = true → ∀ u, method_pref urls prev = some u →
      (pStartsWith u "http:" = true ∨ pStartsWith u "ftp:" = true)) ∧
    ((∃ h ∈ urls, pStartsWith h "http:" = true) → ∀ u,
      method_pref urls prev = some u → pStartsWith u "ftp:" = false) := by
  intro urls prev
  refine ⟨?_, ?_, ?_, ?_, ?_, ?_, ?_⟩
  · intro u hu
    by_cases hp : pStartsWith prev "rsync:" = true
    · rw [method_pref_no_rsync urls prev (Or.inl hp)] at hu
      rcases hh : urls.find? (fun v => pStartsWith v "http:") with _ | x
      · rw [hh] at hu
        have hu1 : urls.find? (fun v => pStartsWith v "ftp:") = some u := hu
        exact List.mem_of_find?_eq_some hu1
      · rw [hh] at hu
        have hx : x = u := by simpa using hu
        subst hx
        exact List.mem_of_find?_eq_some hh
    · have hp1 : pStartsWith prev "rsync:" = false := by simpa using hp
      rcases hr : urls.find? (fun v => pStartsWith v "rsync:") with _ | x
      · rw [method_pref_no_rsync urls prev (Or.inr hr)] at hu
        rcases hh : urls.find? (fun v => pStartsWith v "http:") with _ | x
        · rw [hh] at hu
          have hu1 : urls.find? (fun v => pStartsWith v "ftp:") = some u := hu
          exact List.mem_of_find?_eq_some hu1
        · rw [hh] at hu
          have hx : x = u := by simpa using hu
          subst hx
          exact List.mem_of_find?_eq_some hh
      · rw [method_pref_rsync_hit urls prev x hp1 hr] at hu
        have hx : x = u := by simpa using hu
        subst hx
        exact List.mem_of_find?_eq_some hr
  · intro hp hex
    rcases hr : urls.find? (fun v => pStartsWith v "rsync:") with _ | x
    · rcases hex with ⟨r0, hmem, hpfx⟩
      rw [List.find?_eq_none] at hr
      exact absurd hpfx (by simpa using hr r0 hmem)
    · have heq := method_pref_rsync_hit urls prev x hp hr
      refine ⟨heq, x, heq, ?_⟩
      have h2 := List.find?_some hr
      simpa using h2
  · intro h1 hex
    have hm := method_pref_no_rsync urls prev h1
    rcases hh : urls.find? (fun v => pStartsWith v "http:") with _ | x
    · rcases hex with ⟨h0, hmem, hpfx⟩
      rw [List.find?_eq_none] at hh
      exact absurd hpfx (by simpa using hh h0 hmem)
    · rw [hh] at hm
      have hm2 : method_pref urls prev = some x := hm
      refine ⟨hm2, x, hm2, ?_⟩
      have h2 := List.find?_some hh
      simpa using h2
  · intro h1 hH hex
    have hhn : urls.find? (fun v => pStartsWith v "http:") = none := by
      rw [List.find?_eq_none]
      intro x hx
      simp [hH x hx]
    have hm := method_pref_no_rsync urls prev h1
    rw [hhn] at hm
    have hm2 : method_pref urls prev = urls.find? (fun v => pStartsWith v "ftp:") := hm
    rcases hf : urls.find? (fun v => pStartsWith v "ftp:") with _ | x
    · rcases hex with ⟨f0, hmem, hpfx⟩
      rw [List.find?_eq_none] at hf
      exact absurd hpfx (by simpa using hf f0 hmem)
    · refine ⟨hm2.trans hf, x, hm2.trans hf, ?_⟩
      have h2 := List.find?_some hf
      simpa using h2
  · intro hp
    have hm := method_pref_no_rsync urls prev (Or.inl hp)
    rcases hh : urls.find? (fun v => pStartsWith v "http:") with _ | x
    · rw [hh] at hm
      have hm2 : method_pref urls prev = urls.find? (fun v => pStartsWith v "ftp:") := hm
      rw [hm2]
      constructor
      · intro hn
        rw [List.find?_eq_none] at hn hh
        refine ⟨?_, ?_⟩
        · intro x hx
          have h2 := hh x hx
          simpa using h2
        · intro x hx
          have h2 := hn x hx
          simpa using h2
      · rintro ⟨_, hF⟩
        rw [List.find?_eq_none]
        intro x hx
        simp [hF x hx]
    · rw [hh] at hm
      have hm2 : method_pref urls prev = some x := hm
      rw [hm2]
      constructor
      · intro hn
        cases hn
      · rintro ⟨hH, _⟩
        exfalso
        have h2 := List.find?_some hh
        have hmem := List.mem_of_find?_eq_some hh
        have h3 : pStartsWith x "http:" = true := by simpa using h2
        rw [hH x hmem] at h3
        cases h3
  · intro hp u hu
    have hm := method_pref_no_rsync urls prev (Or.inl hp)
    rw [hm] at hu
    rcases hh : urls.find? (fun v => pStartsWith v "http:") with _ | x
    · rw [hh] at hu
      have hu1 : urls.find? (fun v => pStartsWith v "ftp:") = some u := hu
      have h2 := List.find?_some hu1
      exact Or.inr (by simpa using h2)
    · rw [hh] at hu
      have hx : x = u := by simpa using hu
      subst hx
      have h2 := List.find?_some hh
      exact Or.inl (by simpa using h2)
  · intro hex u hu
    by_cases hp : pStartsWith prev "rsync:" = true
    · rw [method_pref_no_rsync urls prev (Or.inl hp)] at hu
      rcases hh : urls.find? (fun v => pStartsWith v "http:") with _ | x
      · rcases hex with ⟨h0, hmem, hpfx⟩
        rw [List.find?_eq_none] at hh
        exact absurd hpfx (by simpa using hh h0 hmem)
      · rw [hh] at hu
        have hx : x = u := by simpa using hu
        subst hx
        have h2 := List.find?_some hh
        exact http_not_ftp x (by simpa using h2)
    · have hp1 : pStartsWith prev "rsync:" = false := by simpa using hp
      rcases hr : urls.find? (fun v => pStartsWith v "rsync:") with _ | x
      · rw [method_pref_no_rsync urls prev (Or.inr hr)] at hu
        rcases hh : urls.find? (fun v => pStartsWith v "http:") with _ | x
        · rcases hex with ⟨h0, hmem, hpfx⟩
          rw [List.find?_eq_none] at hh
          exact absurd hpfx (by simpa using hh h0 hmem)
        · rw [hh] at hu
          have hx : x = u := by simpa using hu
          subst hx
          have h2 := List.find?_some hh
          exact http_not_ftp x (by simpa using h2)
      · rw [method_pref_rsync_hit urls prev x hp1 hr] at hu
        have hx : x = u := by simpa using hu
        subst hx
        have h2 := List.find?_some hr
        exact rsync_not_ftp x (by simpa using h2)

/-- C5 witness: the ftp-fallback conjunct at a concrete input: previous
choice rsync, no http URL, one ftp URL — the ftp URL is returned, not
null. -/
theorem C5_method_pref_characterization_witness :
    method_pref ["ftp:c"] "rsync:a" =
      (["ftp:c"].find? (fun v => pStartsWith v "ftp:")) ∧
    ∃ u, method_pref ["ftp:c"] "rsync:a" = some u ∧ pStartsWith u "ftp:" = true :=
  (C5_method_pref_characterization ["ftp:c"] "rsync:a").2.2.2.1
    (Or.inl (by decide)) (by decide) (by decide)

/-- C6 counterexample: the claim says a file whose URL redirects 11 times
yields verdict unknown; on an 11-redirect chain ending in a matching 200
the probe follows the whole chain and concludes `True`. -/
theorem C6_counterexample :
    check_url c6World11 "http:r0" "5" 0 true = .ok (some true) := rfl

/-- C6 (amended): the HTTP probe follows at most 11 redirects: an
11-redirect chain is followed to its final response, while a chain of 12
redirections raises the HTTP-unknown signal, which `try_per_file` turns
into verdict unknown for the directory. -/
theorem C6_redirect_depth :
    check_url c6World12 "http:v/f" "5" 0 true = .error .httpUnknown ∧
    try_per_file c6World12 c6Dir "http:v" = .ok none ∧
    check_url c6World11 "http:r0" "5" 0 true = .ok (some true) :=
  ⟨rfl, rfl, rfl⟩

/-- C7: the claim says a `--category` filter narrows the scan to the
matching HostCategories, each usable by the walker.  Due to
`result.append(hc)` inside `for entry in hc:` (the loop variable `entry`
is unused), the scan list holds one copy of the query-result *list* per
matching row instead; iterating it makes the walker read
`always_up2date` off a list, an AttributeError, so the worker exits with
code 3.  Without the filter the scan is all of the host's categories, as
claimed. -/
theorem C7_category_filter_appends_list :
    select_host_categories_to_scan c7Query ["CatA"] c7Host = [.hcList [c7Hc]] ∧
    select_host_categories_to_scan c7Query [] c7Host = [.hcElem c7Hc] ∧
    (worker c7World c7Opts c7Host ⟨[], 0⟩).1 = 3 :=
  ⟨rfl, rfl, rfl⟩

/-- The walker's delay update sends `min (2 ^ k) 8` to `min (2 ^ (k+1)) 8`. -/
theorem capDouble_eq (k : Nat) :
    (if min (2 ^ k) 8 < 8 then min (2 ^ k) 8 * 2 else min (2 ^ k) 8)
      = min (2 ^ (k + 1)) 8 := by
  rcases Nat.lt_or_ge k 3 with hk | hk
  · interval_cases k <;> decide
  · have h8 : (8 : Nat) ≤ 2 ^ k := by
      calc (8 : Nat) = 2 ^ 3 := by norm_num
      _ ≤ 2 ^ k := Nat.pow_le_pow_right (by norm_num) hk
    have h8x : (8 : Nat) ≤ 2 ^ (k + 1) :=
      le_trans h8 (Nat.pow_le_pow_right (by norm_num) (Nat.le_succ k))
    rw [min_eq_right h8, min_eq_right h8x]
    simp

/-- Unfolding the sleep pattern by one step. -/
theorem sleepSeq_succ (k j : Nat) :
    sleepSeq k (j + 1) = min (2 ^ k) 8 :: sleepSeq (k + 1) j := by
  unfold sleepSeq
  rw [List.range_succ_eq_map, List.map_cons, List.map_map]
  refine congrArg₂ List.cons (by simp) ?_
  apply List.map_congr_left
  intro i _
  have harith : k + (i + 1) = k + 1 + i := by omega
  simp [Function.comp, harith]

/-- The directory loop's back-off: starting from delay `min (2 ^ k) 8`,
the sleeps it appends follow the doubling-capped-at-8 pattern. -/
theorem walk_dirs_sleeps (w : World) (opts : Options) (hc : HostCategory)
    (url : String) (plen : Nat) :
    ∀ (rows : List HCDRow) (k tick : Nat) (m : VerdictMap) (ws : WalkState) (rc : Nat),
    ∃ j, (walk_dirs w opts hc url plen rows (min (2 ^ k) 8) tick m ws rc).ws.sleeps
      = ws.sleeps ++ sleepSeq k j := by
  intro rows
  induction rows with
  | nil =>
    intro k tick m ws rc
    exact ⟨0, by simp [walk_dirs, sleepSeq]⟩
  | cons row rest ih =>
    intro k tick m ws rc
    simp only [walk_dirs]
    split
    · exact ⟨0, by simp [sleepSeq]⟩
    · split
      · exact ⟨0, by simp [sleepSeq]⟩
      · split
        · exact ih k (tick + 1) m ws rc
        · split
          · exact ih k (tick + 1) m ws rc
          · split
            · exact ih k (tick + 1) _ ws rc
            · exact ih k (tick + 1) _ ws rc
            · exact ih k (tick + 1) m ws rc
            · rw [capDouble_eq]
              obtain ⟨j, hj⟩ :=
                ih (k + 1) (tick + 1) m { ws with sleeps := ws.sleeps ++ [min (2 ^ k) 8] } rc
              refine ⟨j + 1, ?_⟩
              rw [hj, sleepSeq_succ]
              simp
            · exact ⟨0, by simp [sleepSeq, mark_not_up2date]⟩

/-- C2 counterexample: a concrete walk where every probe of the first
directory raises try-later while the second succeeds.  The walk
terminates with exit code 0 after exactly one sleep, records no verdict
for the first directory and a true verdict for the second: the walker
moved on to the next directory instead of retrying the same one (a retry
would sleep again, as the first directory raises try-later on every
attempt). -/
theorem C2_counterexample :
    (walk_dirs c2World c2Opts c2Hc "ftp:h2" 5 c2Rows 1 0 [] ⟨false, 0, []⟩ 0).res = .ok () ∧
    (walk_dirs c2World c2Opts c2Hc "ftp:h2" 5 c2Rows 1 0 [] ⟨false, 0, []⟩ 0).rc = 0 ∧
    (walk_dirs c2World c2Opts c2Hc "ftp:h2" 5 c2Rows 1 0 [] ⟨false, 0, []⟩ 0).ws.sleeps = [1] ∧
    mapLookup (walk_dirs c2World c2Opts c2Hc "ftp:h2" 5 c2Rows 1 0 [] ⟨false, 0, []⟩ 0).m
      (c2Hc, c2D1) = none ∧
    mapLookup (walk_dirs c2World c2Opts c2Hc "ftp:h2" 5 c2Rows 1 0 [] ⟨false, 0, []⟩ 0).m
      (c2Hc, c2D2) = some (some true) :=
  ⟨rfl, rfl, rfl, rfl, rfl⟩

/-- C2 (amended): on try-later the walker sleeps the current delay and
then proceeds to the NEXT directory (the try-later directory gets no
verdict and no retry); the delay starts at 1 second, doubles after each
try-later and is capped at 8 seconds, so the sleep log always follows the
pattern 1, 2, 4, 8, 8, ... -/
theorem C2_trylater_backoff_moves_on :
    (∀ (w : World) (opts : Options) (hc : HostCategory) (url : String) (plen : Nat)
        (rows : List HCDRow) (tick : Nat) (m : VerdictMap) (rc : Nat),
      ∃ j, (walk_dirs w opts hc url plen rows 1 tick m ⟨false, 0, []⟩ rc).ws.sleeps
        = sleepSeq 0 j) ∧
    ((walk_dirs c2World c2Opts c2Hc "ftp:h2" 5 c2Rows 1 0 [] ⟨false, 0, []⟩ 0).res = .ok () ∧
     (walk_dirs c2World c2Opts c2Hc "ftp:h2" 5 c2Rows 1 0 [] ⟨false, 0, []⟩ 0).ws.sleeps = [1] ∧
     mapLookup (walk_dirs c2World c2Opts c2Hc "ftp:h2" 5 c2Rows 1 0 [] ⟨false, 0, []⟩ 0).m
       (c2Hc, c2D2) = some (some true)) := by
  constructor
  · intro w opts hc url plen rows tick m rc
    have h := walk_dirs_sleeps w opts hc url plen rows 0 tick m ⟨false, 0, []⟩ rc
    have e : min (2 ^ 0) 8 = 1 := by norm_num
    rw [e] at h
    simpa using h
  · exact ⟨rfl, rfl, rfl⟩

/-- `check_head` raises HTTP-500 on any response with status 500 or more
(for any fuel, hence for the wrapper). -/
theorem http_step_head_500 (w : World) (fs url : String) (readable : Bool)
    (rec retry : Nat) (r : HeadResp) (h1 : w.openOk url = true)
    (h2 : w.resp url retry = some r) (h3 : 500 ≤ r.status) :
    ∀ fuel, http_step w fs readable (fuel + 1) (.head url retry) rec = .error .http500 := by
  intro fuel
  simp only [http_step]
  rw [h1, h2]
  simp only [if_true]
  rw [if_neg (by omega), if_neg (by omega), if_neg (by omega), if_pos h3]

/-- Every exception other than `TryLater` that arises while probing one
file is swallowed by `try_per_file` (the `ForbiddenExpected`, `ftplib`
and bare `except:` handlers all return a verdict instead). -/
theorem tpf_go_no_other_error (w : World) (d : Directory) (url : String) :
    ∀ (files : List (String × String)) (ex : Option Bool) (e : Exc),
    tpf_go w d url files ex = .error e → e = .tryLater := by
  intro files
  induction files with
  | nil =>
    intro ex e h
    cases ex <;> simp [tpf_go] at h
  | cons fp rest ih =>
    intro ex e h
    obtain ⟨fname, fsize⟩ := fp
    simp only [tpf_go] at h
    split at h
    · simp only [Except.error.injEq] at h
      exact h.symm
    · cases h
    · cases h
    · cases h
    · split at h
      · cases h
      · split at h
        · cases h
        · exact ih _ _ h

/-- C3 counterexample: the claim says an HTTP 5xx propagates unhandled so
the walker marks the host not-up-to-date with exit code 1.  On a concrete
host whose only probe answers 500, `try_per_file` swallows the HTTP-500
signal (bare `except:`) and returns verdict unknown, and the host ends
with exit code 0 and is never marked not-up-to-date. -/
theorem C3_counterexample :
    try_per_file c3World c3Dir "http:h3/s" = .ok none ∧
    (per_host c3World c3Opts c3Host c3SS).1 = .ok 0 ∧
    (per_host c3World c3Opts c3Host c3SS).2.1.marked = false :=
  ⟨rfl, rfl, rfl⟩

/-- C3 (amended): a HEAD status of 500 or more makes `check_head` raise
the HTTP-500 signal, but `try_per_file` does not let it propagate: the
only exception that ever escapes `try_per_file` is try-later; HTTP-500 is
caught by the bare `except:` and becomes verdict unknown (no verdict is
recorded and the host is not marked failed). -/
theorem C3_http500_raised_but_swallowed :
    (∀ (w : World) (url fs : String) (rec : Nat) (readable : Bool) (retry : Nat)
        (r : HeadResp), w.openOk url = true → w.resp url retry = some r →
      500 ≤ r.status → check_head w url fs rec readable retry = .error .http500) ∧
    (∀ (w : World) (d : Directory) (url : String) (e : Exc),
      try_per_file w d url = .error e → e = .tryLater) := by
  constructor
  · intro w url fs rec readable retry r h1 h2 h3
    show http_step w fs readable 100 (.head url retry) rec = .error .http500
    exact http_step_head_500 w fs url readable rec retry r h1 h2 h3 99
  · intro w d url e h
    unfold try_per_file at h
    split at h
    · cases h
    · exact tpf_go_no_other_error w d url _ none e h

/-- C3 witness: the amended theorem at concrete inputs — the 500 response
of `c3World` makes `check_head` raise HTTP-500, and a concrete try-later
escape of `try_per_file` is indeed the try-later signal. -/
theorem C3_http500_raised_but_swallowed_witness :
    check_head c3World "http:h3/s/f" "10" 0 true 0 = .error .http500 ∧
    Exc.tryLater = Exc.tryLater :=
  ⟨C3_http500_raised_but_swallowed.1 c3World "http:h3/s/f" "10" 0 true 0
      ⟨500, none, none⟩ rfl rfl (Nat.le_refl 500),
   C3_http500_raised_but_swallowed.2 c2World c2D1 "ftp:h2/a" .tryLater rfl⟩

/-- Lookup after insert-or-replace. -/
theorem mapLookup_mapInsert {κ β : Type} [DecidableEq κ]
    (l : List (κ × β)) (key k : κ) (v : β) :
    mapLookup (mapInsert l key v) k = if key = k then some v else mapLookup l k := by
  induction l with
  | nil => simp [mapInsert, mapLookup]
  | cons p rest ih =>
    obtain ⟨pk, pv⟩ := p
    by_cases h1 : pk = key
    · subst h1
      simp only [mapInsert, if_pos rfl, mapLookup]
      by_cases h2 : pk = k <;> simp [h2]
    · simp only [mapInsert, if_neg h1, mapLookup, ih]
      by_cases h2 : pk = k <;> by_cases h3 : key = k <;> simp_all

/-- `add_parents` never changes an entry that is already present. -/
theorem add_parents_preserves (tbl : List Directory) (hc : HostCategory) :
    ∀ (fuel : Nat) (m : VerdictMap) (d : Directory) (k : HostCategory × Directory),
    (mapLookup m k).isSome = true →
    mapLookup (add_parents tbl m hc d fuel) k = mapLookup m k := by
  intro fuel
  induction fuel with
  | zero => intro m d k _; rfl
  | succ fuel ih =>
    intro m d k hk
    simp only [add_parents]
    split
    · rfl
    · rename_i parentDir _
      by_cases hpar : (mapLookup m (hc, parentDir)).isSome = true
      · rw [if_pos hpar]
        split
        · exact ih _ parentDir k hk
        · rfl
      · rw [if_neg hpar]
        have hne : (hc, parentDir) ≠ k := by
          intro he
          rw [he, hk] at hpar
          exact hpar rfl
        have hm1 : mapLookup (mapInsert m (hc, parentDir) none) k = mapLookup m k := by
          rw [mapLookup_mapInsert, if_neg hne]
        split
        · rw [ih _ parentDir k (by rw [hm1]; exact hk), hm1]
        · exact hm1

/-- Every entry `add_parents` adds or changes carries verdict null. -/
theorem add_parents_only_null (tbl : List Directory) (hc : HostCategory) :
    ∀ (fuel : Nat) (m : VerdictMap) (d : Directory) (k : HostCategory × Directory),
    mapLookup (add_parents tbl m hc d fuel) k = mapLookup m k ∨
    mapLookup (add_parents tbl m hc d fuel) k = some none := by
  intro fuel
  induction fuel with
  | zero => intro m d k; exact Or.inl rfl
  | succ fuel ih =>
    intro m d k
    simp only [add_parents]
    split
    · exact Or.inl rfl
    · rename_i parentDir _
      by_cases hpar : (mapLookup m (hc, parentDir)).isSome = true
      · rw [if_pos hpar]
        split
        · exact ih _ parentDir k
        · exact Or.inl rfl
      · rw [if_neg hpar]
        have hm1 : mapLookup (mapInsert m (hc, parentDir) none) k = mapLookup m k ∨
            mapLookup (mapInsert m (hc, parentDir) none) k = some none := by
          rw [mapLookup_mapInsert]
          by_cases he : (hc, parentDir) = k
          · rw [if_pos he]
            exact Or.inr rfl
          · rw [if_neg he]
            exact Or.inl rfl
        split
        · rcases ih _ parentDir k with h2 | h2
          · rw [h2]
            exact hm1
          · exact Or.inr h2
        · exact hm1

/-- C4 counterexample: the claim says ancestors strictly between `d` and
the topdir receive verdict *true* and the topdir is excluded.  On a
concrete three-level chain, parent propagation for the leaf's true
verdict inserts the middle directory with verdict *null* and the topdir
itself, also with null. -/
theorem C4_counterexample :
    add_parents c4Tbl c4Map c4Hc c4Leaf 12 =
      [((c4Hc, c4Leaf), some true), ((c4Hc, c4Mid), none), ((c4Hc, c4Top), none)] := rfl

/-- C4 (amended): whenever a true verdict is recorded for `(hc, d)`,
parent propagation inserts the ancestors of `d` along the parent chain —
up to and including the category topdir — with verdict *null* (not true),
and never modifies an entry already present: every key of the result maps
either to its old verdict or to null, as the concrete chain shows for the
middle directory and the included topdir. -/
theorem C4_parents_added_with_null :
    (∀ (tbl : List Directory) (m : VerdictMap) (hc : HostCategory) (d : Directory)
        (fuel : Nat) (k : HostCategory × Directory),
      (mapLookup m k).isSome = true →
      mapLookup (add_parents tbl m hc d fuel) k = mapLookup m k) ∧
    (∀ (tbl : List Directory) (m : VerdictMap) (hc : HostCategory) (d : Directory)
        (fuel : Nat) (k : HostCategory × Directory),
      mapLookup (add_parents tbl m hc d fuel) k = mapLookup m k ∨
      mapLookup (add_parents tbl m hc d fuel) k = some none) ∧
    mapLookup (add_parents c4Tbl c4Map c4Hc c4Leaf 12) (c4Hc, c4Mid) = some none ∧
    mapLookup (add_parents c4Tbl c4Map c4Hc c4Leaf 12) (c4Hc, c4Top) = some none :=
  ⟨fun tbl m hc d fuel k h => add_parents_preserves tbl hc fuel m d k h,
   fun tbl m hc d fuel k => add_parents_only_null tbl hc fuel m d k,
   rfl, rfl⟩

/-- C4 witness: the amended theorem applied at the concrete chain: the
leaf's own true verdict is untouched by parent propagation. -/
theorem C4_parents_added_with_null_witness :
    mapLookup (add_parents c4Tbl c4Map c4Hc c4Leaf 12) (c4Hc, c4Leaf)
      = mapLookup c4Map (c4Hc, c4Leaf) :=
  C4_parents_added_with_null.1 c4Tbl c4Map c4Hc c4Leaf 12 (c4Hc, c4Leaf) rfl

/-- Replacing a row with one of the same key preserves the key list. -/
theorem replaceRow_map_rowKey (hcid : Nat) (path : String) (newr : HCDRow)
    (hk : rowKey newr = (hcid, path)) :
    ∀ rows : List HCDRow,
    (replaceRow rows hcid path newr).map rowKey = rows.map rowKey := by
  intro rows
  induction rows with
  | nil => rfl
  | cons r rest ih =>
    simp only [replaceRow]
    split
    · rename_i h
      simp only [List.map_cons]
      congr 1
      rw [hk]
      simp [rowKey, h.1, h.2]
    · simp only [List.map_cons, ih]

/-- The row `findRow` returns carries the queried key. -/
theorem findRow_some (rows : List HCDRow) (hcid : Nat) (path : String) (r : HCDRow)
    (h : findRow rows hcid path = some r) : rowKey r = (hcid, path) := by
  have h2 := List.find?_some h
  simp only [Bool.and_eq_true, beq_iff_eq] at h2
  simp [rowKey, h2.1, h2.2]

/-- The key of a row is unchanged by the `directory` fix-up. -/
theorem rowKey_fix_dir (r : HCDRow) (d : Directory) :
    rowKey (fix_directory r d) = rowKey r := by
  unfold fix_directory
  split <;> rfl

/-- Keys in the store after the main pass: each one either existed before
or comes from a verdict-true entry of the map. -/
theorem main_pass_keys (m : VerdictMap) :
    ∀ (keys : List (HostCategory × Directory)) (rows : List HCDRow) (stats : StatsL)
      (cur : List (Nat × String)) (rows1 : List HCDRow) (stats1 : StatsL)
      (cur1 : List (Nat × String)),
    main_pass m keys rows stats cur = .ok (rows1, stats1, cur1) →
    ∀ kk ∈ rows1.map rowKey, kk ∈ rows.map rowKey ∨
      ∃ hc d, mapLookup m (hc, d) = some (some true) ∧
        kk = (hc.id, pDrop d.name (pLen hc.category.topdir.name + 1)) := by
  intro keys
  induction keys with
  | nil =>
    intro rows stats cur rows1 stats1 cur1 h kk hkk
    simp only [main_pass, Except.ok.injEq, Prod.mk.injEq] at h
    obtain ⟨h1, _, _⟩ := h
    rw [← h1] at hkk
    exact Or.inl hkk
  | cons key rest ih =>
    intro rows stats cur rows1 stats1 cur1 h kk hkk
    obtain ⟨hc, d⟩ := key
    simp only [main_pass] at h
    split at h
    · split at h
      · cases h
      · exact ih _ _ _ _ _ _ h kk hkk
    · rename_i v hgd
      have hvtrue : ¬ v = false → mapLookup m (hc, d) = some (some true) := by
        intro hv2
        have hv3 : v = true := by
          revert hv2
          cases v <;> simp
        cases hlk : mapLookup m (hc, d) with
        | none => rw [hlk] at hgd; cases hgd
        | some o =>
          rw [hlk] at hgd
          simp only [Option.getD_some] at hgd
          rw [hgd, hv3]
      split at h
      · rename_i hcd0 hfind
        have hk0 : rowKey hcd0 =
            (hc.id, pDrop d.name (pLen hc.category.topdir.name + 1)) :=
          findRow_some _ _ _ _ hfind
        have hkfix : rowKey (fix_directory hcd0 d) =
            (hc.id, pDrop d.name (pLen hc.category.topdir.name + 1)) := by
          rw [rowKey_fix_dir]
          exact hk0
        split at h
        · split at h
          · cases h
          · have hkey2 : rowKey { fix_directory hcd0 d with up2date := some v } =
                (hc.id, pDrop d.name (pLen hc.category.topdir.name + 1)) := hkfix
            have hmem := ih _ _ _ _ _ _ h kk hkk
            rw [replaceRow_map_rowKey _ _ _ hkey2 rows] at hmem
            exact hmem
        · split at h
          · cases h
          · have hmem := ih _ _ _ _ _ _ h kk hkk
            rw [replaceRow_map_rowKey _ _ _ hkfix rows] at hmem
            exact hmem
      · split at h
        · exact ih _ _ _ _ _ _ h kk hkk
        · rename_i hv2
          split at h
          · cases h
          · split at h
            · split at h
              · cases h
              · have hmem := ih _ _ _ _ _ _ h kk hkk
                rw [List.map_append] at hmem
                rcases hmem with hin | hex
                · rcases List.mem_append.mp hin with hl | hr
                  · exact Or.inl hl
                  · simp only [List.map_cons, List.map_nil, List.mem_singleton] at hr
                    refine Or.inr ⟨hc, d, hvtrue hv2, ?_⟩
                    rw [hr]
                    rfl
                · exact Or.inr hex
            · split at h
              · cases h
              · have hmem := ih _ _ _ _ _ _ h kk hkk
                rw [List.map_append] at hmem
                rcases hmem with hin | hex
                · rcases List.mem_append.mp hin with hl | hr
                  · exact Or.inl hl
                  · simp only [List.map_cons, List.map_nil, List.mem_singleton] at hr
                    refine Or.inr ⟨hc, d, hvtrue hv2, ?_⟩
                    rw [hr]
                    rfl
                · exact Or.inr hex

/-- The post-pass inner loop never changes the key list of the store
(it only flips `up2date` flags in place). -/
theorem post_hc_keys (cur : List (Nat × String)) :
    ∀ (snapshot rowsCur : List HCDRow) (stats : StatsL)
      (rows1 : List HCDRow) (stats1 : StatsL),
    post_hc cur snapshot rowsCur stats = .ok (rows1, stats1) →
    rows1.map rowKey = rowsCur.map rowKey := by
  intro snapshot
  induction snapshot with
  | nil =>
    intro rowsCur stats rows1 stats1 h
    simp only [post_hc, Except.ok.injEq, Prod.mk.injEq] at h
    rw [← h.1]
  | cons hcd rest ih =>
    intro rowsCur stats rows1 stats1 h
    simp only [post_hc] at h
    split at h
    · split at h
      · cases h
      · exact ih _ _ _ _ h
    · split at h
      · split at h
        · split at h
          · cases h
          · have hmem := ih _ _ _ _ h
            rw [hmem, replaceRow_map_rowKey hcd.host_category_id hcd.path
              { hcd with up2date := some false } rfl rowsCur]
        · exact ih _ _ _ _ h
      · exact ih _ _ _ _ h

/-- The post-pass never changes the key list of the store. -/
theorem post_pass_keys (host : Host) (cur : List (Nat × String)) :
    ∀ (hcs : List HostCategory) (rowsCur : List HCDRow) (stats : StatsL)
      (rows1 : List HCDRow) (stats1 : StatsL),
    post_pass host cur hcs rowsCur stats = .ok (rows1, stats1) →
    rows1.map rowKey = rowsCur.map rowKey := by
  intro hcs
  induction hcs with
  | nil =>
    intro rowsCur stats rows1 stats1 h
    simp only [post_pass, Except.ok.injEq, Prod.mk.injEq] at h
    rw [← h.1]
  | cons hc rest ih =>
    intro rowsCur stats rows1 stats1 h
    simp only [post_pass] at h
    split at h
    · cases h
    · rename_i rows2 stats2 hhc
      rw [ih _ _ _ _ h, post_hc_keys cur _ _ _ _ _ hhc]

/-- C8: a new HCD row is created only for entries whose verdict is true.
Formally: after the main pass (and hence after a successful `sync_hcds`,
whose post-pass only updates flags in place), every row key of the store
either already existed or is `(hc.id, path)` for some map entry
`(hc, d) -> true` — so entries with verdict false or null never create
rows. -/
theorem C8_rows_created_only_for_true_verdicts :
    (∀ (m : VerdictMap) (keys : List (HostCategory × Directory)) (rows : List HCDRow)
        (stats : StatsL) (cur : List (Nat × String)) (rows1 : List HCDRow)
        (stats1 : StatsL) (cur1 : List (Nat × String)),
      main_pass m keys rows stats cur = .ok (rows1, stats1, cur1) →
      ∀ r ∈ rows1, rowKey r ∈ rows.map rowKey ∨
        ∃ hc d, mapLookup m (hc, d) = some (some true) ∧
          rowKey r = (hc.id, pDrop d.name (pLen hc.category.topdir.name + 1))) ∧
    (∀ (host : Host) (m : VerdictMap) (s : SyncState) (s1 : SyncState),
      sync_hcds host m s = .ok s1 →
      ∀ r ∈ s1.rows, rowKey r ∈ s.rows.map rowKey ∨
        ∃ hc d, mapLookup m (hc, d) = some (some true) ∧
          rowKey r = (hc.id, pDrop d.name (pLen hc.category.topdir.name + 1))) := by
  constructor
  · intro m keys rows stats cur rows1 stats1 cur1 h r hr
    exact main_pass_keys m keys rows stats cur rows1 stats1 cur1 h (rowKey r)
      (List.mem_map_of_mem rowKey hr)
  · intro host m s s1 h r hr
    simp only [sync_hcds] at h
    split at h
    · cases h
    · rename_i rows1 stats1 cur hmain
      split at h
      · cases h
      · rename_i rows2 stats2 hpost
        split at h
        · cases h
        · simp only [Except.ok.injEq] at h
          rw [← h] at hr
          have hkk : rowKey r ∈ rows2.map rowKey := List.mem_map_of_mem rowKey hr
          rw [post_pass_keys host cur host.categories rows1 stats1 rows2 stats2 hpost] at hkk
          have := main_pass_keys m (sortKeys (m.map Prod.fst)) s.rows
            (statsSet statsInit "numkeys" (sortKeys (m.map Prod.fst)).length) []
            rows1 stats1 cur hmain (rowKey r) hkk
          exact this

/-- C8 witness: the theorem applied to a concrete sync run that creates
one row for a true verdict: the created row's key comes from that
verdict. -/
theorem C8_rows_created_only_for_true_verdicts_witness :
    rowKey c8Row ∈ (([] : List HCDRow).map rowKey) ∨
    ∃ hc d, mapLookup c8Map (hc, d) = some (some true) ∧
      rowKey c8Row = (hc.id, pDrop d.name (pLen hc.category.topdir.name + 1)) :=
  C8_rows_created_only_for_true_verdicts.2 c8Host c8Map ⟨[], 0⟩ ⟨[c8Row], 1⟩ rfl
    c8Row (by simp)

/-- `per_host` either succeeds or leaves the session untouched. -/
theorem per_host_state_dichotomy (w : World) (opts : Options) (host : Host)
    (ss : SyncState) :
    (∃ rc, (per_host w opts host ss).1 = .ok rc) ∨
    (per_host w opts host ss).2.2 = ss := by
  simp only [per_host]
  split
  · exact Or.inl ⟨1, rfl⟩
  · split
    · exact Or.inl ⟨1, rfl⟩
    · split
      · exact Or.inr rfl
      · split
        · split
          · split
            · exact Or.inr rfl
            · exact Or.inl ⟨_, rfl⟩
          · exact Or.inl ⟨_, rfl⟩
        · exact Or.inl ⟨_, rfl⟩

/-- C9: when the per-host deadline fires at a directory boundary (the
clock reading exceeds `timeout_minutes * 60`), the walker's loop yields
the timeout signal immediately; whenever the timeout signal unwinds out
of `per_host`, the worker converts it to exit code 2 and no commit of the
session is performed (the commit counter is the initial one). -/
theorem C9_timeout_exit2_no_commit :
    (∀ (w : World) (opts : Options) (hc : HostCategory) (url : String) (plen : Nat)
        (row : HCDRow) (rest : List HCDRow) (delay tick : Nat) (m : VerdictMap)
        (ws : WalkState) (rc : Nat),
      w.clock tick > opts.timeout_minutes * 60 →
      (walk_dirs w opts hc url plen (row :: rest) delay tick m ws rc).res
        = .error .timeoutExc) ∧
    (∀ (w : World) (opts : Options) (host : Host) (ss : SyncState),
      (per_host w opts host ss).1 = .error .timeoutExc →
      (worker w opts host ss).1 = 2 ∧
      (worker w opts host ss).2.2.commits = ss.commits) := by
  constructor
  · intro w opts hc url plen row rest delay tick m ws rc hclock
    simp only [walk_dirs]
    rw [if_pos hclock]
  · intro w opts host ss h
    have hss : (per_host w opts host ss).2.2 = ss := by
      rcases per_host_state_dichotomy w opts host ss with ⟨rc, hrc⟩ | hok
      · rw [h] at hrc
        cases hrc
      · exact hok
    rcases hph : per_host w opts host ss with ⟨r, ws, ss1⟩
    have hr : r = .error .timeoutExc := by
      rw [hph] at h
      exact h
    have hs1 : ss1 = ss := by
      rw [hph] at hss
      exact hss
    subst hr
    subst hs1
    constructor
    · simp only [worker, hph]
    · simp only [worker, hph]

/-- C9 witness: a concrete world whose clock exceeds a zero-minute
deadline at the first directory boundary: the worker exits 2 without
committing. -/
theorem C9_timeout_exit2_no_commit_witness :
    (worker c9World c9Opts c3Host c3SS).1 = 2 ∧
    (worker c9World c9Opts c3Host c3SS).2.2.commits = c3SS.commits :=
  C9_timeout_exit2_no_commit.2 c9World c9Opts c3Host c3SS rfl

/-- The generator predicate of `doit`, in arithmetic form. -/
theorem host_filter_iff (o : Options) (h : Host) :
    host_filter o h = true ↔
      (o.startid ≤ h.id ∧ h.id < o.stopid ∧
       ¬(h.admin_active = true ∧ h.user_active = true ∧
         h.site.user_active = true ∧ h.site.admin_active = true) ∧
       h.site.private = false) := by
  obtain ⟨id, name, priv, aa, ua, ⟨sua, saa, sp⟩, cats⟩ := h
  simp only [host_filter]
  cases aa <;> cases ua <;> cases sua <;> cases saa <;> cases sp <;> simp

/-- C10: `doit` schedules a host iff its id lies in `[startid, stopid)`,
its site is not private, and NOT all four activation flags are true; in
particular a fully activated host is never crawled. -/
theorem C10_host_selection :
    (∀ (o : Options) (hosts : List Host) (h : Host),
      h ∈ doit_hosts o hosts ↔
        (h ∈ hosts ∧ o.startid ≤ h.id ∧ h.id < o.stopid ∧
         ¬(h.admin_active = true ∧ h.user_active = true ∧
           h.site.user_active = true ∧ h.site.admin_active = true) ∧
         h.site.private = false)) ∧
    (∀ (o : Options) (hosts : List Host) (h : Host),
      h.admin_active = true → h.user_active = true → h.site.user_active = true →
      h.site.admin_active = true → h ∉ doit_hosts o hosts) := by
  have hmem : ∀ (o : Options) (hosts : List Host) (h : Host),
      h ∈ doit_hosts o hosts ↔ (h ∈ hosts ∧ host_filter o h = true) := by
    intro o hosts h
    simp [doit_hosts, List.mem_filter]
  constructor
  · intro o hosts h
    rw [hmem, host_filter_iff]
  · intro o hosts h h1 h2 h3 h4 hmem2
    rcases (hmem o hosts h).mp hmem2 with ⟨_, hf⟩
    rcases (host_filter_iff o h).mp hf with ⟨_, _, hno, _⟩
    exact hno ⟨h1, h2, h3, h4⟩

/-- C10 witness: the fully activated concrete host is never scheduled. -/
theorem C10_host_selection_witness :
    c10Host ∉ doit_hosts c10Opts [c10Host] :=
  C10_host_selection.2 c10Opts [c10Host] c10Host rfl rfl rfl rfl
